import Mathlib

/-!
Verification of the Ledgerly dynamic-table / invoicing core.

This file is a shallow embedding, in Lean 4, of the data model and the
operations of the Ledgerly web application (source files
`src/pages/TablesPage.tsx`, `src/pages/InvoicesPage.tsx`, the dashboard
analytics page and the reports/analytics page), together with proofs of
the behavioural properties stated in the specification.

Modelling conventions:
* JavaScript numbers are modelled as exact rationals (`ℚ`); `NaN` and the
  infinities get their own constructors in the `Value` type, so that the
  `Number.isFinite` guards of the source are represented faithfully.
* JavaScript objects (row value maps) are association lists
  `List (String × Value)` with the usual object semantics: an assignment
  replaces the value at the first occurrence of the key or appends, and
  `delete` removes the key.
* Environment-dependent primitives that the claims do not constrain are
  taken as parameters: `numStr` (JS number-to-string conversion),
  `parseDate` (calendar parsing, returning the canonical `YYYY-MM-DD`
  form or `none` for an invalid date), `lower` (JS `toLowerCase`) and
  `ckey` (the ICU collation key underlying `localeCompare`, so that
  `a.localeCompare(b) ≤ 0 ↔ ckey a ≤ ckey b` in the builtin string
  order).
* List order of loaded rows/columns models creation order (the source
  always loads them ordered by `created_at` ascending).
-/

namespace Ledgerly

/-- A raw JavaScript cell value as stored in a row's value map:
a string, a finite number, `NaN`, `±Infinity`, `null` or `undefined`. -/
inductive Value where
  | vstr (s : String)
  | vnum (q : ℚ)
  | vnan
  | vinf (neg : Bool)
  | vnull
  | vundef
deriving DecidableEq, Repr

/-- The four declared column types of the table editor
(`TablesPage.tsx`, `type ColumnType`). -/
inductive ColumnType where
  | text
  | number
  | currency
  | date
deriving DecidableEq, Repr

/-- A declared column (`DbColumn` in the source); `table_id` scopes it to
its table.  The `created_at` field is not modelled: list order stands for
creation order. -/
structure DbColumn where
  id : String
  table_id : String
  name : String
  type : ColumnType
deriving DecidableEq, Repr

/-- A row (`DbRow` in the source): its value map is an association list
from column name to raw value. -/
structure DbRow where
  id : String
  table_id : String
  row_data : List (String × Value)
deriving DecidableEq, Repr

/-- The JavaScript whitespace class (the `\s` regex class and the set
trimmed by `String.prototype.trim`). -/
def isJsSpace (c : Char) : Bool :=
  [' ', '\t', '\n', '\r', '\x0B', '\x0C', ' ', ' ',
   ' ', ' ', ' ', ' ', ' ', ' ',
   ' ', ' ', ' ', ' ', ' ', ' ',
   ' ', ' ', ' ', '　', '﻿'].contains c

/-- Strip leading and trailing JS whitespace from a character list. -/
def trimJsList (cs : List Char) : List Char :=
  ((cs.dropWhile isJsSpace).reverse.dropWhile isJsSpace).reverse

/-- JS `String.prototype.trim`. -/
def jsTrim (s : String) : String := ⟨trimJsList s.toList⟩

/-- Numeric value of a decimal digit character. -/
def digitsToNat (cs : List Char) : Nat :=
  cs.foldl (fun a c => a * 10 + (c.toNat - '0'.toNat)) 0

/-- Value of a hexadecimal digit character, if it is one. -/
def hexDigitVal (c : Char) : Option Nat :=
  if c.isDigit then some (c.toNat - '0'.toNat)
  else if 'a' ≤ c ∧ c ≤ 'f' then some (c.toNat - 'a'.toNat + 10)
  else if 'A' ≤ c ∧ c ≤ 'F' then some (c.toNat - 'A'.toNat + 10)
  else none

/-- Parse a non-empty digit string in base `b` (used for the JS `0x`,
`0o`, `0b` literal forms); `none` models `NaN`. -/
def parseRadix (b : Nat) (cs : List Char) : Option ℚ :=
  if cs.isEmpty then none
  else
    (cs.foldl
      (fun acc c =>
        match acc, hexDigitVal c with
        | some a, some d => if d < b then some (a * b + d) else none
        | _, _ => none)
      (some (0 : Nat))).map (fun n => (n : ℚ))

/-- Split a character list at the first `e`/`E` (exponent marker). -/
def splitExp : List Char → List Char × Option (List Char)
  | [] => ([], none)
  | c :: rest =>
    if c == 'e' || c == 'E' then ([], some rest)
    else
      let p := splitExp rest
      (c :: p.1, p.2)

/-- Split a character list at the first `.` (decimal point). -/
def splitDot : List Char → List Char × Option (List Char)
  | [] => ([], none)
  | c :: rest =>
    if c == '.' then ([], some rest)
    else
      let p := splitDot rest
      (c :: p.1, p.2)

/-- Parse an exponent: an optional sign followed by a non-empty digit
string. -/
def parseSignedInt (cs : List Char) : Option Int :=
  match cs with
  | '+' :: ds =>
    if !ds.isEmpty && ds.all Char.isDigit then some (digitsToNat ds) else none
  | '-' :: ds =>
    if !ds.isEmpty && ds.all Char.isDigit then some (-(digitsToNat ds : Int)) else none
  | ds =>
    if !ds.isEmpty && ds.all Char.isDigit then some (digitsToNat ds) else none

/-- Parse an unsigned JS decimal literal
(`digits [. digits] [exp]`, `. digits [exp]`); `none` models `NaN`. -/
def parseUnsignedDec (cs : List Char) : Option ℚ :=
  let me := splitExp cs
  let expVal : Option Int :=
    match me.2 with
    | none => some 0
    | some e => parseSignedInt e
  match expVal with
  | none => none
  | some ev =>
    let ifp := splitDot me.1
    let ip := ifp.1
    let fp := (ifp.2).getD []
    if ip.all Char.isDigit && fp.all Char.isDigit && (!ip.isEmpty || !fp.isEmpty) then
      let base : ℚ :=
        if fp.isEmpty then (digitsToNat ip : ℚ)
        else (digitsToNat ip : ℚ) + (digitsToNat fp : ℚ) / (10 : ℚ) ^ fp.length
      some
        (if ev = 0 then base
        else if 0 ≤ ev then base * (10 : ℚ) ^ ev.toNat
        else base / (10 : ℚ) ^ (-ev).toNat)
    else none

/-- Parse a signed JS decimal literal; `Infinity` is non-finite, so it is
mapped to `none` like `NaN` (the callers only distinguish finite
results, via `Number.isFinite`). -/
def parseDecSigned (cs : List Char) : Option ℚ :=
  match cs with
  | '+' :: rest =>
    if rest = "Infinity".toList then none else parseUnsignedDec rest
  | '-' :: rest =>
    if rest = "Infinity".toList then none else (parseUnsignedDec rest).map (fun q => -q)
  | _ =>
    if cs = "Infinity".toList then none else parseUnsignedDec cs

/-- The JS `Number(string)` conversion: `some q` when the result is the
finite number `q`, `none` when the result is `NaN` or `±Infinity`. -/
def jsNumber (s : String) : Option ℚ :=
  let cs := trimJsList s.toList
  if cs.isEmpty then some 0
  else
    match cs with
    | '0' :: 'x' :: rest => parseRadix 16 rest
    | '0' :: 'X' :: rest => parseRadix 16 rest
    | '0' :: 'o' :: rest => parseRadix 8 rest
    | '0' :: 'O' :: rest => parseRadix 8 rest
    | '0' :: 'b' :: rest => parseRadix 2 rest
    | '0' :: 'B' :: rest => parseRadix 2 rest
    | _ => parseDecSigned cs

/-- `String(v).replace(/,/g, "")` — strip commas only. -/
def stripCommas (s : String) : String :=
  ⟨s.toList.filter (fun c => !(c == ','))⟩

/-- `String(v).replace(/[₹,\s]/g, "")` — strip the rupee glyph, commas
and whitespace (the dashboard / analytics variant). -/
def stripCurrencySp (s : String) : String :=
  ⟨s.toList.filter (fun c => !(c == '₹' || c == ',' || isJsSpace c))⟩

/-- `toNumberSafe` of `TablesPage.tsx` (lines 93–98): null, undefined
and the empty string give `0`; a finite number passes through, a
non-finite one gives `0`; a string has its commas stripped and is parsed
with `Number`, with `0` on a non-finite result. -/
def toNumberSafe : Value → ℚ
  | Value.vnull => 0
  | Value.vundef => 0
  | Value.vstr s => if s = "" then 0 else (jsNumber (stripCommas s)).getD 0
  | Value.vnum q => q
  | Value.vnan => 0
  | Value.vinf _ => 0

/-- `toNumberSafe` of the dashboard page (unnamed part_002, lines
45–53): same shape, but the string is cleaned with
`replace(/[₹,\s]/g, "")` before parsing. -/
def toNumberSafeDash : Value → ℚ
  | Value.vnull => 0
  | Value.vundef => 0
  | Value.vstr s => if s = "" then 0 else (jsNumber (stripCurrencySp s)).getD 0
  | Value.vnum q => q
  | Value.vnan => 0
  | Value.vinf _ => 0

/-- JS truthiness test on a raw value (`!v`). -/
def isFalsy : Value → Bool
  | Value.vnull => true
  | Value.vundef => true
  | Value.vstr s => s = ""
  | Value.vnum q => q = 0
  | Value.vnan => true
  | Value.vinf _ => false

/-- JS `String(v)`; the number-to-string conversion is the parameter
`numStr`. -/
def jsToString (numStr : ℚ → String) : Value → String
  | Value.vstr s => s
  | Value.vnum q => numStr q
  | Value.vnan => "NaN"
  | Value.vinf neg => if neg then "-Infinity" else "Infinity"
  | Value.vnull => "null"
  | Value.vundef => "undefined"

/-- `toNumberSafe` of the analytics/reports page (unnamed part_001,
lines 29–34): any falsy input gives `0`; otherwise the value is
stringified, cleaned with `replace(/[₹,\s]/g, "")` and parsed. -/
def toNumberSafeAnalytics (numStr : ℚ → String) (v : Value) : ℚ :=
  if isFalsy v then 0 else (jsNumber (stripCurrencySp (jsToString numStr v))).getD 0

/-! ## JavaScript object (value-map) operations -/

/-- Read a key from an object: `some v` if present, `none` if absent. -/
def objGet {β : Type} : List (String × β) → String → Option β
  | [], _ => none
  | p :: rest, k => if p.1 == k then some p.2 else objGet rest k

/-- Object assignment `o[k] = v`: replace the value at the key if
present (keys are unique in a JS object), else append the key. -/
def objSet {β : Type} : List (String × β) → String → β → List (String × β)
  | [], k, v => [(k, v)]
  | p :: rest, k, v => if p.1 == k then (k, v) :: rest else p :: objSet rest k v

/-- `delete o[k]`. -/
def objDel {β : Type} (l : List (String × β)) (k : String) : List (String × β) :=
  l.filter (fun p => !(p.1 == k))

/-- JS member access `o[k]`: `undefined` when the key is absent. -/
def jsIndex (rd : List (String × Value)) (k : String) : Value :=
  (objGet rd k).getD Value.vundef

/-- The JS `??` coalescing used on cell reads: `v ?? ""`. -/
def orEmptyV (v : Value) : Value :=
  if v = Value.vnull ∨ v = Value.vundef then Value.vstr "" else v

/-- `a.includes(b)` on lists of characters: `startsWithL pat l` is true
when `pat` is an initial segment of `l`. -/
def startsWithL : List Char → List Char → Bool
  | [], _ => true
  | _ :: _, [] => false
  | a :: as, b :: bs => a == b && startsWithL as bs

/-- `pat` occurs contiguously somewhere in the list. -/
def substrAux (pat : List Char) : List Char → Bool
  | [] => pat.isEmpty
  | c :: rest => startsWithL pat (c :: rest) || substrAux pat rest

/-- JS `hay.includes(pat)`. -/
def substrB (pat hay : String) : Bool := substrAux pat.toList hay.toList

/-- ASCII simple-case lowering of one character. -/
def lowerChar (c : Char) : Char :=
  if 65 ≤ c.toNat ∧ c.toNat ≤ 90 then Char.ofNat (c.toNat + 32) else c

/-- `toLowerCase` as used on column names by the analytics paths; the
pattern terms are all ASCII, so the ASCII simple-case mapping is the
relevant fragment of the JS semantics. -/
def jsLowerAscii (s : String) : String := ⟨s.toList.map lowerChar⟩

/-! ## Document generator (`InvoicesPage.tsx`) -/

/-- A line item of an invoice/quotation/bill (`InvoiceItem`). -/
structure InvoiceItem where
  description : String
  hsn : String
  qty : ℚ
  rate : ℚ
  amount : ℚ
deriving DecidableEq, Repr

/-- The totals block of a document (`Totals`). -/
structure Totals where
  subtotal : ℚ
  tax_percent : ℚ
  tax_amount : ℚ
  total : ℚ
  terms : String
  note : String
deriving DecidableEq, Repr

/-- The editor form state for a document (`InvoiceData`, restricted to
the fields the totals logic touches plus the identifying metadata). -/
structure InvoiceForm where
  doc_no : String
  customer_name : String
  items : List InvoiceItem
  totals : Totals
deriving DecidableEq, Repr

/-- The blank item used for the initial form, for `addItem` and for the
empty-list fallback of `removeItem`:
`{ description: "", hsn: "", qty: 1, rate: 0, amount: 0 }`. -/
def blankItem : InvoiceItem :=
  { description := "", hsn := "", qty := 1, rate := 0, amount := 0 }

/-- `recalcTotals` (`InvoicesPage.tsx` lines 199–215): recompute
subtotal, tax amount and grand total from the item list and the tax
percent, and store them together with the new item list. -/
def recalcTotals (prev : InvoiceForm) (items : List InvoiceItem) (taxPercent : ℚ) :
    InvoiceForm :=
  let subtotal := items.foldl (fun s i => s + i.amount) 0
  let tax_amount := subtotal * (taxPercent / 100)
  let total := subtotal + tax_amount
  { prev with
    items := items
    totals := { prev.totals with
      subtotal := subtotal
      tax_percent := taxPercent
      tax_amount := tax_amount
      total := total } }

/-- One field edit of a line item (`keyof InvoiceItem` with the value of
the field's type). -/
inductive ItemEdit where
  | description (s : String)
  | hsn (s : String)
  | qty (q : ℚ)
  | rate (q : ℚ)
  | amount (q : ℚ)
deriving DecidableEq, Repr

/-- Assign the edited field (`(items[idx] as any)[field] = value`). -/
def applyEdit (it : InvoiceItem) : ItemEdit → InvoiceItem
  | ItemEdit.description s => { it with description := s }
  | ItemEdit.hsn s => { it with hsn := s }
  | ItemEdit.qty q => { it with qty := q }
  | ItemEdit.rate q => { it with rate := q }
  | ItemEdit.amount q => { it with amount := q }

/-- The `field === "qty" || field === "rate"` test of `updateItem`. -/
def isQtyOrRate : ItemEdit → Bool
  | ItemEdit.qty _ => true
  | ItemEdit.rate _ => true
  | _ => false

/-- An edit that writes the `amount` field directly (no UI control
produces one; the amount cell is read-only). -/
def isAmountEdit : ItemEdit → Bool
  | ItemEdit.amount _ => true
  | _ => false

/-- `updateItem` (`InvoicesPage.tsx` lines 217–231): assign the field,
recompute `amount = qty * rate` when qty or rate was edited, then
recompute the totals synchronously. -/
def updateItem (f : InvoiceForm) (idx : ℕ) (e : ItemEdit) : InvoiceForm :=
  match f.items[idx]? with
  | none => f
  | some it =>
    let it1 := applyEdit it e
    let it2 := if isQtyOrRate e then { it1 with amount := it1.qty * it1.rate } else it1
    recalcTotals f (f.items.set idx it2) f.totals.tax_percent

/-- `addItem` (lines 233–239): append a blank item and recompute. -/
def addItem (f : InvoiceForm) : InvoiceForm :=
  recalcTotals f (f.items ++ [blankItem]) f.totals.tax_percent

/-- `removeItem` (lines 241–249): drop the item at the index; if the
list became empty, replace it with a single blank item; recompute. -/
def removeItem (f : InvoiceForm) (idx : ℕ) : InvoiceForm :=
  let items := f.items.eraseIdx idx
  recalcTotals f (if items.isEmpty then [blankItem] else items) f.totals.tax_percent

/-- The tax-percent input's change handler (line 805):
`recalcTotals(form.items, Number(e.target.value))`. -/
def setTaxPercent (f : InvoiceForm) (p : ℚ) : InvoiceForm :=
  recalcTotals f f.items p

/-- The initial form state (one blank item, zero totals). -/
def initialForm : InvoiceForm :=
  { doc_no := ""
    customer_name := ""
    items := [blankItem]
    totals :=
      { subtotal := 0, tax_percent := 0, tax_amount := 0, total := 0
        terms := "", note := "" } }

/-- Invariant: the displayed totals agree with the item list
(subtotal is the sum of the amounts, tax is `subtotal * percent / 100`,
total is their sum) — i.e. the totals are not stale. -/
def totalsInvariant (f : InvoiceForm) : Prop :=
  f.totals.subtotal = (f.items.map (fun i => i.amount)).sum ∧
  f.totals.tax_amount = f.totals.subtotal * (f.totals.tax_percent / 100) ∧
  f.totals.total = f.totals.subtotal + f.totals.tax_amount

/-- Invariant: every item's amount is its quantity times its rate. -/
def amountInvariant (f : InvoiceForm) : Prop :=
  ∀ it ∈ f.items, it.amount = it.qty * it.rate

/-! ## Table data model operations (`TablesPage.tsx`) -/

/-- The inner `rows.reduce((sum, r) => sum + toNumberSafe(rd[c.name]), 0)`
of `columnTotals`. -/
def rowsColSum (rows : List DbRow) (name : String) : ℚ :=
  rows.foldl (fun s r => s + toNumberSafe (jsIndex r.row_data name)) 0

/-- `columnTotals` (`TablesPage.tsx` lines 590–602): a record mapping
each number/currency column name to the sum of the coerced values of
that column over ALL rows (not the filtered view). -/
def columnTotals (columns : List DbColumn) (rows : List DbRow) : List (String × ℚ) :=
  columns.foldl
    (fun totals c =>
      if c.type = ColumnType.number ∨ c.type = ColumnType.currency then
        objSet totals c.name (rowsColSum rows c.name)
      else totals)
    []

/-- The totals row the page renders (the `tfoot` at lines 1296–1321 and
both export paths): it shows `columnTotals`, whose memo depends only on
`columns` and `rows` — the search term and sort state are not inputs. -/
def displayedColumnTotals (columns : List DbColumn) (rows : List DbRow)
    (searchQuery : String) (sortCol : Option String) (sortAsc : Bool) :
    List (String × ℚ) :=
  columnTotals columns rows

/-- The row-backfill loop of `handleAddColumn` (lines 331–341): every
row that does not already have the new column's key gets it with the
empty-string default. -/
def handleAddColumnRows (rows : List DbRow) (colName : String) : List DbRow :=
  rows.map fun r =>
    if jsIndex r.row_data colName ≠ Value.vundef then r
    else { r with row_data := objSet r.row_data colName (Value.vstr "") }

/-- The number/currency sanitize branch of `handleColumnUpdate`:
empty-ish input stays the stored empty marker, anything else becomes the
coerced number. -/
def sanitizeNum (v : Value) : Value :=
  if v = Value.vstr "" ∨ v = Value.vnull ∨ v = Value.vundef then Value.vstr ""
  else Value.vnum (toNumberSafe v)

/-- The per-type sanitize step of `handleColumnUpdate` (lines 402–415):
permissive numeric parse for number/currency, canonical `YYYY-MM-DD` (or
empty on an invalid date) for date, string conversion for text. -/
def sanitizeValue (numStr : ℚ → String) (parseDate : String → Option String)
    (t : ColumnType) (v : Value) : Value :=
  match t with
  | ColumnType.number => sanitizeNum v
  | ColumnType.currency => sanitizeNum v
  | ColumnType.date =>
    if isFalsy v then Value.vstr ""
    else
      match parseDate (jsToString numStr v) with
      | none => Value.vstr ""
      | some d => Value.vstr d
  | ColumnType.text =>
    if v = Value.vnull ∨ v = Value.vundef then Value.vstr ""
    else Value.vstr (jsToString numStr v)

/-- The per-row body of `handleColumnUpdate` (lines 390–419): move the
value from the old key to the new key when the column was renamed
(deleting the old key), then overwrite the new key with the value
sanitized under the new type. -/
def columnUpdateRow (numStr : ℚ → String) (parseDate : String → Option String)
    (oldName newName : String) (newType : ColumnType)
    (rd : List (String × Value)) : List (String × Value) :=
  let rd1 :=
    if oldName == newName then rd
    else objDel (objSet rd newName (jsIndex rd oldName)) oldName
  objSet rd1 newName (sanitizeValue numStr parseDate newType (jsIndex rd1 newName))

/-- `handleColumnUpdate` applied to every row of the table. -/
def handleColumnUpdateRows (numStr : ℚ → String) (parseDate : String → Option String)
    (oldName newName : String) (newType : ColumnType) (rows : List DbRow) : List DbRow :=
  rows.map fun r =>
    { r with row_data := columnUpdateRow numStr parseDate oldName newName newType r.row_data }

/-- `String(v ?? "")` — the comparable display string used by the search
filter. -/
def displayStr (numStr : ℚ → String) (v : Value) : String :=
  jsToString numStr (orEmptyV v)

/-- One row's search predicate
(`Object.values(rd).some(v => String(v ?? "").toLowerCase().includes(q))`);
`q` is already lowercased by the caller. -/
def rowMatchesQ (lower : String → String) (numStr : ℚ → String)
    (q : String) (r : DbRow) : Bool :=
  r.row_data.any fun p => substrB q (lower (displayStr numStr p.2))

/-- The filter half of `filteredAndSortedRows` (lines 505–511): when the
trimmed search term is non-empty, keep the rows with some cell whose
lowercased display string contains the lowercased (untrimmed) term;
otherwise keep every row. -/
def filteredRows (lower : String → String) (numStr : ℚ → String)
    (rows : List DbRow) (searchQuery : String) : List DbRow :=
  if jsTrim searchQuery ≠ "" then
    rows.filter (rowMatchesQ lower numStr (lower searchQuery))
  else rows

/-- The sort direction state (`"asc" | "desc"`). -/
inductive SortDir where
  | asc
  | desc
deriving DecidableEq, Repr

/-- Stable insertion of `x` into `l`: `x` goes in front of the first
element `y` with `le x y`. -/
def insertLe {α : Type} (le : α → α → Bool) (x : α) : List α → List α
  | [] => [x]
  | y :: ys => if le x y then x :: y :: ys else y :: insertLe le x ys

/-- The stable sort of ECMAScript `Array.prototype.sort` with a
consistent comparator `cmp`, expressed with `le a b ↔ cmp(a,b) ≤ 0`:
an element `a` ends up before `b` exactly when `cmp(a,b) < 0`, or
`cmp(a,b) = 0` and `a` was before `b` in the input. -/
def sortJs {α : Type} (le : α → α → Bool) (l : List α) : List α :=
  l.foldr (insertLe le) []

/-- The sort-key value of a row for a column: `rd[sortColumnName] ?? ""`. -/
def sortValOf (colName : String) (r : DbRow) : Value :=
  orEmptyV (jsIndex r.row_data colName)

/-- Numeric sort key (number/currency columns): the coerced value. -/
def numKey (colName : String) (r : DbRow) : ℚ :=
  toNumberSafe (sortValOf colName r)

/-- String sort key (all other columns): the collation key of the
display string, modelling `String(aVal).localeCompare(String(bVal))`. -/
def strKey (ckey : String → String) (numStr : ℚ → String)
    (colName : String) (r : DbRow) : String :=
  ckey (jsToString numStr (sortValOf colName r))

/-- Ascending `le` comparator from a key function. -/
def ascLe {α K : Type} [LinearOrder K] (k : α → K) (a b : α) : Bool :=
  decide (k a ≤ k b)

/-- Descending `le` comparator: the source flips the operands
(`nb - na`, `sb.localeCompare(sa)`). -/
def descLe {α K : Type} [LinearOrder K] (k : α → K) (a b : α) : Bool :=
  decide (k b ≤ k a)

/-- Direction-dependent comparator of the sort. -/
def dirLe {α K : Type} [LinearOrder K] (k : α → K) : SortDir → α → α → Bool
  | SortDir.asc => ascLe k
  | SortDir.desc => descLe k

/-- `columns.find(c => c.name === sortColumnName)?.type ?? "text"`. -/
def resolvedSortType (columns : List DbColumn) (colName : String) : ColumnType :=
  ((columns.find? (fun c => c.name == colName)).map (fun c => c.type)).getD
    ColumnType.text

/-- `filteredAndSortedRows` (lines 502–534): filter by the search term,
then, when a sort column is active, stable-sort by the type-aware
comparator (coerced numeric comparison for number/currency, locale
string comparison otherwise), in the active direction. -/
def filteredAndSortedRows (lower : String → String) (numStr : ℚ → String)
    (ckey : String → String) (columns : List DbColumn) (rows : List DbRow)
    (searchQuery : String) (sortCol : Option String) (dir : SortDir) : List DbRow :=
  let fl := filteredRows lower numStr rows searchQuery
  match sortCol with
  | none => fl
  | some colName =>
    let t := resolvedSortType columns colName
    if t = ColumnType.number ∨ t = ColumnType.currency then
      sortJs (dirLe (numKey colName) dir) fl
    else
      sortJs (dirLe (strKey ckey numStr colName) dir) fl

/-- The three persistence deletions `handleDeleteTable` can issue. -/
inductive DbOp where
  | delRows (tableId : String)
  | delCols (tableId : String)
  | delTable (tableId : String)
deriving DecidableEq, Repr

/-- `handleDeleteTable` (lines 286–312) against an abstract persistence
backend `exec`: delete the rows, then the columns, then the table,
aborting at the first failure (the `throw`/`catch` reports the failing
message as `some e`).  Returns the trace of attempted deletions together
with the reported error, if any. -/
def handleDeleteTable (exec : DbOp → Except String Unit) (tid : String) :
    List DbOp × Option String :=
  match exec (DbOp.delRows tid) with
  | Except.error e => ([DbOp.delRows tid], some e)
  | Except.ok _ =>
    match exec (DbOp.delCols tid) with
    | Except.error e => ([DbOp.delRows tid, DbOp.delCols tid], some e)
    | Except.ok _ =>
      match exec (DbOp.delTable tid) with
      | Except.error e =>
        ([DbOp.delRows tid, DbOp.delCols tid, DbOp.delTable tid], some e)
      | Except.ok _ =>
        ([DbOp.delRows tid, DbOp.delCols tid, DbOp.delTable tid], none)

/-! ## Cross-table analytics -/

/-- The terms of `amountNameRegex` on the dashboard (unnamed part_002,
lines 227–228). -/
def amountTerms : List String :=
  ["amount", "revenue", "income", "sale", "sales", "price", "paid",
   "payment", "total", "subtotal"]

/-- The terms of `expenseNameRegex` (lines 229–230). -/
def expenseTerms : List String :=
  ["expense", "cost", "spent", "purchase", "fee", "charges", "rent",
   "salary", "tax", "gst", "vat"]

/-- A case-insensitive alternation regex `/(t1|t2|...)/i.test(name)`:
some term occurs as a substring of the lowercased name. -/
def matchesAny (terms : List String) (name : String) : Bool :=
  terms.any fun t => substrB t (jsLowerAscii name)

/-- The revenue/expense bucket of the dashboard classification. -/
inductive Bucket where
  | revenue
  | expense
deriving DecidableEq, Repr

/-- The per-column body of the `colsByTable` builder on the dashboard
(unnamed part_002, lines 261–277): only number/currency columns with a
non-empty trimmed name matching the amount or expense pattern are kept;
an expense-pattern match buckets as expense, otherwise revenue. -/
def classifyColumn (c : DbColumn) : Option Bucket :=
  if c.type = ColumnType.number ∨ c.type = ColumnType.currency then
    let colName := jsTrim c.name
    if colName = "" then none
    else if matchesAny amountTerms colName || matchesAny expenseTerms colName then
      some (if matchesAny expenseTerms colName then Bucket.expense else Bucket.revenue)
    else none
  else none

/-- `moneySummary` of the analytics/reports page (unnamed part_001,
lines 86–106): over CURRENCY columns only, skip names containing
"total", bucket names containing "expense" or "cost" as expense, and
EVERYTHING ELSE as revenue (no amount-pattern gate).  Returns
(revenue, expense). -/
def moneySummary (numStr : ℚ → String) (columns : List DbColumn)
    (rows : List DbRow) : ℚ × ℚ :=
  rows.foldl
    (fun acc r =>
      ((columns.filter (fun c => c.type == ColumnType.currency)).filter
          (fun c => c.table_id == r.table_id)).foldl
        (fun acc2 c =>
          let name := jsLowerAscii c.name
          let value := toNumberSafeAnalytics numStr (jsIndex r.row_data c.name)
          if substrB "total" name then acc2
          else if substrB "expense" name || substrB "cost" name then
            (acc2.1, acc2.2 + value)
          else (acc2.1 + value, acc2.2))
        acc)
    ((0 : ℚ), (0 : ℚ))

/-- The specification's worked example: items
`[{qty: 2, rate: 50}, {qty: 1, rate: 30}]` with tax 10%, built through
the editor's own operations. -/
def exampleDoc : InvoiceForm :=
  setTaxPercent
    (updateItem
      (updateItem
        (addItem (updateItem (updateItem initialForm 0 (ItemEdit.qty 2)) 0 (ItemEdit.rate 50)))
        1 (ItemEdit.qty 1))
      1 (ItemEdit.rate 30))
    10

/-! ## Helper lemmas: object operations -/

theorem objGet_set_self {β : Type} (l : List (String × β)) (k : String) (v : β) :
    objGet (objSet l k v) k = some v := by
  induction l with
  | nil => simp [objSet, objGet]
  | cons p rest ih =>
    by_cases h : p.1 = k
    · simp [objSet, objGet, h]
    · simp [objSet, objGet, h, ih]

theorem objGet_set_ne {β : Type} (l : List (String × β)) (k k' : String) (v : β)
    (h : k' ≠ k) : objGet (objSet l k v) k' = objGet l k' := by
  induction l with
  | nil => simp [objSet, objGet, Ne.symm h]
  | cons p rest ih =>
    by_cases hp : p.1 = k
    · simp [objSet, objGet, hp, Ne.symm h]
    · by_cases hp' : p.1 = k'
      · simp [objSet, objGet, hp, hp', h]
      · simp [objSet, objGet, hp, hp', ih]

theorem objGet_del_self {β : Type} (l : List (String × β)) (k : String) :
    objGet (objDel l k) k = none := by
  induction l with
  | nil => simp [objDel, objGet]
  | cons p rest ih =>
    by_cases h : p.1 = k
    · simpa [objDel, List.filter_cons, h] using ih
    · simpa [objDel, List.filter_cons, h, objGet] using ih

theorem objGet_del_ne {β : Type} (l : List (String × β)) (k k' : String)
    (h : k' ≠ k) : objGet (objDel l k) k' = objGet l k' := by
  induction l with
  | nil => simp [objDel, objGet]
  | cons p rest ih =>
    by_cases hp : p.1 = k
    · simpa [objDel, List.filter_cons, hp, objGet, Ne.symm h] using ih
    · by_cases hp' : p.1 = k'
      · simp [objDel, List.filter_cons, hp, objGet, hp', h]
      · simpa [objDel, List.filter_cons, hp, objGet, hp'] using ih

/-! ## Helper lemmas: folds and totals -/

theorem foldl_add_map {β : Type} (f : β → ℚ) (l : List β) (a : ℚ) :
    l.foldl (fun s x => s + f x) a = a + (l.map f).sum := by
  induction l generalizing a with
  | nil => simp
  | cons x xs ih => simp [ih, add_assoc]

theorem rowsColSum_eq_sum (rows : List DbRow) (name : String) :
    rowsColSum rows name =
      (rows.map (fun r => toNumberSafe (jsIndex r.row_data name))).sum := by
  simpa [rowsColSum] using
    foldl_add_map (fun r : DbRow => toNumberSafe (jsIndex r.row_data name)) rows 0

theorem columnTotals_loop (rows : List DbRow) (n : String) :
    ∀ (cols : List DbColumn) (acc : List (String × ℚ)),
      objGet
          (cols.foldl
            (fun totals c =>
              if c.type = ColumnType.number ∨ c.type = ColumnType.currency then
                objSet totals c.name (rowsColSum rows c.name)
              else totals)
            acc) n =
        if ∃ c ∈ cols,
            (c.type = ColumnType.number ∨ c.type = ColumnType.currency) ∧ c.name = n
        then some (rowsColSum rows n)
        else objGet acc n := by
  intro cols
  induction cols with
  | nil => intro acc; simp
  | cons c cs ih =>
    intro acc
    rw [List.foldl_cons]
    by_cases hnum : c.type = ColumnType.number ∨ c.type = ColumnType.currency
    · rw [if_pos hnum, ih]
      by_cases hany : ∃ x ∈ cs,
          (x.type = ColumnType.number ∨ x.type = ColumnType.currency) ∧ x.name = n
      · simp [List.exists_mem_cons_iff, hany]
      · by_cases hname : c.name = n
        · simp [List.exists_mem_cons_iff, hany, hnum, hname, objGet_set_self]
        · simp [List.exists_mem_cons_iff, hany, hnum, hname,
            objGet_set_ne acc c.name n (rowsColSum rows c.name) (Ne.symm hname)]
    · rw [if_neg hnum, ih]
      simp [List.exists_mem_cons_iff, hnum]

/-! ## Helper lemmas: the stable sort -/

theorem insertLe_perm {α : Type} (le : α → α → Bool) (x : α) (l : List α) :
    List.Perm (insertLe le x l) (x :: l) := by
  induction l with
  | nil => simp [insertLe]
  | cons y ys ih =>
    by_cases h : le x y
    · simp [insertLe, h]
    · rw [insertLe, if_neg h]
      exact (ih.cons y).trans (List.Perm.swap x y ys)

theorem sortJs_perm {α : Type} (le : α → α → Bool) (l : List α) :
    List.Perm (sortJs le l) l := by
  induction l with
  | nil => simp [sortJs]
  | cons a l ih =>
    have hs : sortJs le (a :: l) = insertLe le a (sortJs le l) := rfl
    rw [hs]
    exact (insertLe_perm le a _).trans (ih.cons a)

theorem mem_insertLe {α : Type} (le : α → α → Bool) (x : α) (l : List α) (z : α) :
    z ∈ insertLe le x l ↔ z = x ∨ z ∈ l := by
  simpa using (insertLe_perm le x l).mem_iff

theorem filter_insertLe {α : Type} (le : α → α → Bool) (p : α → Bool) (x : α)
    (h : ∀ y, le x y = false → p x = true → p y = false) :
    ∀ l : List α, (insertLe le x l).filter p =
      if p x then x :: l.filter p else l.filter p := by
  intro l
  induction l with
  | nil => by_cases hx : p x <;> simp [insertLe, List.filter_cons, hx]
  | cons y ys ih =>
    by_cases hxy : le x y
    · by_cases hx : p x <;> simp [insertLe, hxy, List.filter_cons, hx]
    · have hxy' : le x y = false := by simpa using hxy
      by_cases hx : p x
      · have hy : p y = false := h y hxy' hx
        simp [insertLe, hxy, List.filter_cons, hy, ih, hx]
      · simp [insertLe, hxy, List.filter_cons, ih, hx]

theorem sortJs_filter {α : Type} (le : α → α → Bool) (p : α → Bool) (l : List α)
    (h : ∀ x y, le x y = false → p x = true → p y = false) :
    (sortJs le l).filter p = l.filter p := by
  induction l with
  | nil => rfl
  | cons a l ih =>
    have hs : sortJs le (a :: l) = insertLe le a (sortJs le l) := rfl
    rw [hs, filter_insertLe le p a (fun y hy hx => h a y hy hx) (sortJs le l)]
    by_cases ha : p a
    · simp [List.filter_cons, ha, ih]
    · simp [List.filter_cons, ha, ih]

theorem pairwise_insertLe {α : Type} (le : α → α → Bool)
    (htot : ∀ a b, le a b = false → le b a = true)
    (htrans : ∀ a b c, le a b = true → le b c = true → le a c = true)
    (x : α) (l : List α) (h : l.Pairwise fun a b => le a b = true) :
    (insertLe le x l).Pairwise fun a b => le a b = true := by
  induction l with
  | nil => simp [insertLe]
  | cons y ys ih =>
    rcases List.pairwise_cons.mp h with ⟨hy, hys⟩
    by_cases hxy : le x y
    · rw [insertLe, if_pos hxy]
      refine List.pairwise_cons.mpr ⟨?_, h⟩
      intro z hz
      rcases List.mem_cons.mp hz with rfl | hz'
      · exact hxy
      · exact htrans x y z hxy (hy z hz')
    · rw [insertLe, if_neg hxy]
      refine List.pairwise_cons.mpr ⟨?_, ih hys⟩
      intro z hz
      rcases (mem_insertLe le x ys z).mp hz with hzx | hz'
      · rw [hzx]
        exact htot x y (by simpa using hxy)
      · exact hy z hz'

theorem sortJs_pairwise {α : Type} (le : α → α → Bool)
    (htot : ∀ a b, le a b = false → le b a = true)
    (htrans : ∀ a b c, le a b = true → le b c = true → le a c = true)
    (l : List α) :
    (sortJs le l).Pairwise fun a b => le a b = true := by
  induction l with
  | nil => simp [sortJs]
  | cons a l ih => exact pairwise_insertLe le htot htrans a _ ih

theorem ascLe_total {α K : Type} [LinearOrder K] (k : α → K) :
    ∀ a b, ascLe k a b = false → ascLe k b a = true := by
  intro a b h
  simp only [ascLe, decide_eq_false_iff_not] at h
  simpa [ascLe] using le_of_not_le h

theorem ascLe_trans {α K : Type} [LinearOrder K] (k : α → K) :
    ∀ a b c, ascLe k a b = true → ascLe k b c = true → ascLe k a c = true := by
  intro a b c hab hbc
  simp only [ascLe, decide_eq_true_eq] at hab hbc
  simpa [ascLe] using le_trans hab hbc

theorem descLe_total {α K : Type} [LinearOrder K] (k : α → K) :
    ∀ a b, descLe k a b = false → descLe k b a = true := by
  intro a b h
  simp only [descLe, decide_eq_false_iff_not] at h
  simpa [descLe] using le_of_not_le h

theorem descLe_trans {α K : Type} [LinearOrder K] (k : α → K) :
    ∀ a b c, descLe k a b = true → descLe k b c = true → descLe k a c = true := by
  intro a b c hab hbc
  simp only [descLe, decide_eq_true_eq] at hab hbc
  simpa [descLe] using le_trans hbc hab

/-- With pairwise-distinct sort keys, the descending stable sort is the
exact reverse of the ascending stable sort. -/
theorem sortJs_desc_eq_reverse {α K : Type} [LinearOrder K] (k : α → K) (l : List α)
    (hd : l.Pairwise fun a b => k a ≠ k b) :
    sortJs (descLe k) l = (sortJs (ascLe k) l).reverse := by
  have pA := sortJs_perm (ascLe k) l
  have pD := sortJs_perm (descLe k) l
  have hdA : (sortJs (ascLe k) l).Pairwise fun a b => k a ≠ k b :=
    (pA.pairwise_iff (fun hab e => hab e.symm)).mpr hd
  have hdD : (sortJs (descLe k) l).Pairwise fun a b => k a ≠ k b :=
    (pD.pairwise_iff (fun hab e => hab e.symm)).mpr hd
  have hsA : (sortJs (ascLe k) l).Pairwise fun a b => k a ≤ k b :=
    (sortJs_pairwise (ascLe k) (ascLe_total k) (ascLe_trans k) l).imp
      (fun hab => by simpa [ascLe] using hab)
  have hsD : (sortJs (descLe k) l).Pairwise fun a b => k b ≤ k a :=
    (sortJs_pairwise (descLe k) (descLe_total k) (descLe_trans k) l).imp
      (fun hab => by simpa [descLe] using hab)
  have hstrictA : (sortJs (ascLe k) l).Pairwise fun a b => k a < k b :=
    (hsA.and hdA).imp fun hab => lt_of_le_of_ne hab.1 hab.2
  have hstrictDrev : ((sortJs (descLe k) l).reverse).Pairwise fun a b => k a < k b := by
    rw [List.pairwise_reverse]
    exact (hsD.and hdD).imp fun hab => lt_of_le_of_ne hab.1 (Ne.symm hab.2)
  haveI : IsAntisymm α fun a b => k a < k b :=
    ⟨fun a b h1 h2 => absurd (h1.trans h2) (lt_irrefl _)⟩
  have hperm : List.Perm ((sortJs (descLe k) l).reverse) (sortJs (ascLe k) l) :=
    ((List.reverse_perm _).trans pD).trans pA.symm
  have heq : (sortJs (descLe k) l).reverse = sortJs (ascLe k) l :=
    List.eq_of_perm_of_sorted hperm hstrictDrev hstrictA
  calc sortJs (descLe k) l
      = ((sortJs (descLe k) l).reverse).reverse := (List.reverse_reverse _).symm
    _ = (sortJs (ascLe k) l).reverse := by rw [heq]

/-- Stability of the stable sort, keyed form: the subsequence of
elements with any fixed sort key is unchanged by the sort (in either
direction).  Stated for an arbitrary decision procedure on the key
equality so it applies at any call site. -/
theorem sortJs_stable_key {α K : Type} [LinearOrder K] (k : α → K)
    (dir : SortDir) (v : K) (l : List α) (inst : ∀ x : α, Decidable (k x = v)) :
    (sortJs (dirLe k dir) l).filter (fun a => @decide (k a = v) (inst a)) =
      l.filter (fun a => @decide (k a = v) (inst a)) := by
  cases dir with
  | asc =>
    refine sortJs_filter _ _ _ ?_
    intro x y hxy hx
    simp only [ascLe, dirLe, decide_eq_false_iff_not] at hxy
    rw [decide_eq_true_eq] at hx
    rw [decide_eq_false_iff_not]
    intro e
    exact hxy (le_of_eq (by rw [hx, e]))
  | desc =>
    refine sortJs_filter _ _ _ ?_
    intro x y hxy hx
    simp only [descLe, dirLe, decide_eq_false_iff_not] at hxy
    rw [decide_eq_true_eq] at hx
    rw [decide_eq_false_iff_not]
    intro e
    exact hxy (le_of_eq (by rw [hx, e]))

/-! ## Helper lemmas: document totals -/

theorem recalcTotals_totalsInvariant (prev : InvoiceForm) (items : List InvoiceItem)
    (p : ℚ) : totalsInvariant (recalcTotals prev items p) := by
  refine ⟨?_, rfl, rfl⟩
  show items.foldl (fun s i => s + i.amount) 0 = (items.map (fun i => i.amount)).sum
  simpa using foldl_add_map (fun i : InvoiceItem => i.amount) items 0

theorem updateItem_totalsInvariant (f : InvoiceForm) (idx : ℕ) (e : ItemEdit)
    (hidx : idx < f.items.length) : totalsInvariant (updateItem f idx e) := by
  unfold updateItem
  rw [List.getElem?_eq_getElem hidx]
  exact recalcTotals_totalsInvariant _ _ _

theorem blankItem_amount : blankItem.amount = blankItem.qty * blankItem.rate := by
  simp [blankItem]

theorem updateItem_amountInvariant (f : InvoiceForm) (idx : ℕ) (e : ItemEdit)
    (hA : amountInvariant f) (hE : isAmountEdit e = false) :
    amountInvariant (updateItem f idx e) := by
  unfold updateItem
  cases hgi : f.items[idx]? with
  | none => exact hA
  | some it =>
    have hmem : it ∈ f.items := List.getElem?_mem hgi
    intro it' hit'
    have hit'' : it' ∈ f.items.set idx
        (if isQtyOrRate e then
          { applyEdit it e with amount := (applyEdit it e).qty * (applyEdit it e).rate }
        else applyEdit it e) := hit'
    rcases List.mem_or_eq_of_mem_set hit'' with hold | hnew
    · exact hA it' hold
    · cases e with
      | qty q => simp [hnew, isQtyOrRate]
      | rate q => simp [hnew, isQtyOrRate]
      | description s =>
        have := hA it hmem
        simp [hnew, isQtyOrRate, applyEdit, this]
      | hsn s =>
        have := hA it hmem
        simp [hnew, isQtyOrRate, applyEdit, this]
      | amount q => simp [isAmountEdit] at hE

theorem addItem_amountInvariant (f : InvoiceForm) (hA : amountInvariant f) :
    amountInvariant (addItem f) := by
  intro it' hit'
  have hit'' : it' ∈ f.items ++ [blankItem] := hit'
  rcases List.mem_append.mp hit'' with hold | hnew
  · exact hA it' hold
  · rcases List.mem_singleton.mp hnew with rfl
    exact blankItem_amount

theorem removeItem_amountInvariant (f : InvoiceForm) (idx : ℕ) (hA : amountInvariant f) :
    amountInvariant (removeItem f idx) := by
  intro it' hit'
  have hit'' : it' ∈
      (if (f.items.eraseIdx idx).isEmpty then [blankItem] else f.items.eraseIdx idx) :=
    hit'
  by_cases hemp : (f.items.eraseIdx idx).isEmpty
  · rw [if_pos hemp] at hit''
    rcases List.mem_singleton.mp hit'' with rfl
    exact blankItem_amount
  · rw [if_neg hemp] at hit''
    exact hA it' ((List.eraseIdx_sublist f.items idx).subset hit'')

/-! ## Claim theorems -/

/-- C1: document totals are recomputed synchronously by every item
add/edit/remove and tax change — after any of these operations the
stored subtotal is the sum of the item amounts, the tax amount is
`subtotal * (taxPercent / 100)` and the grand total is their sum; an
edit of qty or rate recomputes the edited item's `amount = qty * rate`
(and other edits preserve that invariant); and on the worked example
(items `[{qty: 2, rate: 50}, {qty: 1, rate: 30}]`, tax 10%) the
subtotal is 130, the tax amount 13 and the grand total 143. -/
theorem documentTotalsAlwaysFresh (f : InvoiceForm) (idx : ℕ) (e : ItemEdit) (p : ℚ)
    (hA : amountInvariant f) (hE : isAmountEdit e = false)
    (hidx : idx < f.items.length) :
    (totalsInvariant (updateItem f idx e) ∧ totalsInvariant (addItem f) ∧
      totalsInvariant (removeItem f idx) ∧ totalsInvariant (setTaxPercent f p)) ∧
    (amountInvariant (updateItem f idx e) ∧ amountInvariant (addItem f) ∧
      amountInvariant (removeItem f idx) ∧ amountInvariant (setTaxPercent f p)) ∧
    (exampleDoc.totals.subtotal = 130 ∧ exampleDoc.totals.tax_amount = 13 ∧
      exampleDoc.totals.total = 143) := by
  refine ⟨⟨updateItem_totalsInvariant f idx e hidx, recalcTotals_totalsInvariant _ _ _,
      recalcTotals_totalsInvariant _ _ _, recalcTotals_totalsInvariant _ _ _⟩,
    ⟨updateItem_amountInvariant f idx e hA hE, addItem_amountInvariant f hA,
      removeItem_amountInvariant f idx hA, fun it hit => hA it hit⟩,
    ?_, ?_, ?_⟩ <;>
  norm_num [exampleDoc, setTaxPercent, updateItem, addItem, recalcTotals,
    initialForm, blankItem, applyEdit, isQtyOrRate]

/-- Witness for C1 at a concrete editor state. -/
theorem documentTotalsAlwaysFresh_witness :
    totalsInvariant (updateItem initialForm 0 (ItemEdit.qty 3)) ∧
    amountInvariant (updateItem initialForm 0 (ItemEdit.qty 3)) :=
  ⟨(documentTotalsAlwaysFresh initialForm 0 (ItemEdit.qty 3) 10
      (by intro it hit; simp [initialForm] at hit; simp [hit, blankItem])
      (by decide) (by decide)).1.1,
    (documentTotalsAlwaysFresh initialForm 0 (ItemEdit.qty 3) 10
      (by intro it hit; simp [initialForm] at hit; simp [hit, blankItem])
      (by decide) (by decide)).2.1.1⟩

/-- C10: the line-item list is never empty — removing the only item of a
one-item document replaces the list with a single blank item (empty
description, qty 1, rate 0, amount 0) and recomputes the totals (which
are then all zero), and `removeItem` never produces an empty item
list. -/
theorem itemListNeverEmpty (f : InvoiceForm) (idx : ℕ)
    (h1 : f.items.length = 1) (h2 : idx < f.items.length) :
    (removeItem f idx).items = [blankItem] ∧
    totalsInvariant (removeItem f idx) ∧
    (removeItem f idx).totals.subtotal = 0 ∧
    (removeItem f idx).totals.total = 0 ∧
    (∀ (g : InvoiceForm) (j : ℕ), (removeItem g j).items ≠ []) := by
  have hidx0 : idx = 0 := by omega
  rcases List.length_eq_one.mp h1 with ⟨a, ha⟩
  have herase : f.items.eraseIdx idx = [] := by
    rw [ha, hidx0]
    rfl
  refine ⟨?_, recalcTotals_totalsInvariant _ _ _, ?_, ?_, ?_⟩
  · show (if (f.items.eraseIdx idx).isEmpty then [blankItem] else f.items.eraseIdx idx)
        = [blankItem]
    rw [herase]
    rfl
  · show (if (f.items.eraseIdx idx).isEmpty then [blankItem]
        else f.items.eraseIdx idx).foldl (fun s i => s + i.amount) 0 = 0
    rw [herase]
    simp [blankItem]
  · show ((if (f.items.eraseIdx idx).isEmpty then [blankItem]
          else f.items.eraseIdx idx).foldl (fun s i => s + i.amount) 0) +
        ((if (f.items.eraseIdx idx).isEmpty then [blankItem]
          else f.items.eraseIdx idx).foldl (fun s i => s + i.amount) 0) *
          (f.totals.tax_percent / 100) = 0
    rw [herase]
    simp [blankItem]
  · intro g j
    show (if (g.items.eraseIdx j).isEmpty then [blankItem] else g.items.eraseIdx j) ≠ []
    by_cases hemp : (g.items.eraseIdx j).isEmpty
    · simp [hemp]
    · rw [if_neg hemp]
      intro hnil
      exact hemp (by simp [hnil])

/-- Witness for C10: removing the only item of the initial form. -/
theorem itemListNeverEmpty_witness :
    (removeItem initialForm 0).items = [blankItem] ∧
    (removeItem initialForm 0).totals.total = 0 :=
  ⟨(itemListNeverEmpty initialForm 0 (by decide) (by decide)).1,
    (itemListNeverEmpty initialForm 0 (by decide) (by decide)).2.2.2.1⟩

/-- C9: deleting a table issues exactly the three persistence
deletions rows → columns → table, in that order; a failure at any step
stops the sequence there and is reported (`some e`), and no error is
reported exactly when all three deletions succeeded. -/
theorem deleteTableOrderAndShortCircuit (exec : DbOp → Except String Unit)
    (tid : String) :
    ((handleDeleteTable exec tid).2 = none →
      (handleDeleteTable exec tid).1 =
        [DbOp.delRows tid, DbOp.delCols tid, DbOp.delTable tid]) ∧
    (∀ e, exec (DbOp.delRows tid) = Except.error e →
      handleDeleteTable exec tid = ([DbOp.delRows tid], some e)) ∧
    (∀ e, exec (DbOp.delRows tid) = Except.ok () →
      exec (DbOp.delCols tid) = Except.error e →
      handleDeleteTable exec tid = ([DbOp.delRows tid, DbOp.delCols tid], some e)) ∧
    (∀ e, exec (DbOp.delRows tid) = Except.ok () →
      exec (DbOp.delCols tid) = Except.ok () →
      exec (DbOp.delTable tid) = Except.error e →
      handleDeleteTable exec tid =
        ([DbOp.delRows tid, DbOp.delCols tid, DbOp.delTable tid], some e)) ∧
    ((handleDeleteTable exec tid).2 = none ↔
      exec (DbOp.delRows tid) = Except.ok () ∧
        exec (DbOp.delCols tid) = Except.ok () ∧
        exec (DbOp.delTable tid) = Except.ok ()) := by
  cases h1 : exec (DbOp.delRows tid) with
  | error e1 => simp [handleDeleteTable, h1]
  | ok u1 =>
    cases u1
    cases h2 : exec (DbOp.delCols tid) with
    | error e2 => simp [handleDeleteTable, h1, h2]
    | ok u2 =>
      cases u2
      cases h3 : exec (DbOp.delTable tid) with
      | error e3 => simp [handleDeleteTable, h1, h2, h3]
      | ok u3 =>
        cases u3
        simp [handleDeleteTable, h1, h2, h3]

/-- Witness for C9: a backend whose column deletion fails stops before
the table deletion and reports the message. -/
theorem deleteTableOrderAndShortCircuit_witness :
    handleDeleteTable
        (fun op =>
          match op with
          | DbOp.delCols _ => Except.error "boom"
          | _ => Except.ok ())
        "t" =
      ([DbOp.delRows "t", DbOp.delCols "t"], some "boom") :=
  (deleteTableOrderAndShortCircuit
      (fun op =>
        match op with
        | DbOp.delCols _ => Except.error "boom"
        | _ => Except.ok ())
      "t").2.2.1 "boom" rfl rfl

/-- C2: for every number/currency column, the rendered column total is
the sum of the coerced values of that column over ALL rows (missing,
empty or unparseable cells contributing 0 through `toNumberSafe`), and
it does not depend on the active search term or sort state — the
rendered totals are exactly `columnTotals columns rows` for every
search/sort state. -/
theorem columnTotalsOverAllRows (columns : List DbColumn) (rows : List DbRow)
    (c : DbColumn) (hc : c ∈ columns)
    (ht : c.type = ColumnType.number ∨ c.type = ColumnType.currency)
    (searchQuery : String) (sortCol : Option String) (sortAsc : Bool) :
    objGet (displayedColumnTotals columns rows searchQuery sortCol sortAsc) c.name =
      some ((rows.map (fun r => toNumberSafe (jsIndex r.row_data c.name))).sum) ∧
    displayedColumnTotals columns rows searchQuery sortCol sortAsc =
      columnTotals columns rows := by
  constructor
  · show objGet (columnTotals columns rows) c.name = _
    unfold columnTotals
    rw [columnTotals_loop rows c.name columns [], if_pos ⟨c, hc, ht, rfl⟩,
      rowsColSum_eq_sum]
  · rfl

/-- Witness for C2: the spec's scenario table (an `Amount` currency
column over rows "100" and "250.50"), under an active search and sort. -/
theorem columnTotalsOverAllRows_witness :
    objGet
        (displayedColumnTotals [⟨"c1", "t1", "Amount", ColumnType.currency⟩]
          [⟨"r1", "t1", [("Amount", Value.vstr "100")]⟩,
            ⟨"r2", "t1", [("Amount", Value.vstr "250.50")]⟩]
          "pen" (some "Amount") true)
        "Amount" =
      some
        (([⟨"r1", "t1", [("Amount", Value.vstr "100")]⟩,
            ⟨"r2", "t1", [("Amount", Value.vstr "250.50")]⟩] : List DbRow).map
            (fun r => toNumberSafe (jsIndex r.row_data "Amount"))).sum :=
  (columnTotalsOverAllRows [⟨"c1", "t1", "Amount", ColumnType.currency⟩]
    [⟨"r1", "t1", [("Amount", Value.vstr "100")]⟩,
      ⟨"r2", "t1", [("Amount", Value.vstr "250.50")]⟩]
    ⟨"c1", "t1", "Amount", ColumnType.currency⟩ (by decide) (by decide)
    "pen" (some "Amount") true).1

/-- C3 counterexample: the tables-page numeric coercion does NOT strip
currency glyphs — the string "₹1,234" coerces to 0 there, not to 1234
as the claim states. -/
theorem numericCoercionGlyphCounterexample :
    toNumberSafe (Value.vstr "₹1,234") = 0 ∧
    toNumberSafe (Value.vstr "₹1,234") ≠ (1234 : ℚ) := by
  constructor
  · decide
  · decide

/-- C3 (amended): both numeric coercions are total with the stated
postconditions on null/undefined/empty-string/number inputs, and both
parse strings permissively with 0 on a non-finite result; but only the
dashboard variant strips currency glyphs and whitespace (so "₹1,234"
coerces to 1234 there), while the tables-page variant strips only
thousands separators (so "₹1,234" coerces to 0 there). -/
theorem numericCoercionPostconditions (q : ℚ) (b : Bool) (s : String) :
    (toNumberSafe Value.vnull = 0 ∧ toNumberSafe Value.vundef = 0 ∧
      toNumberSafe (Value.vstr "") = 0 ∧ toNumberSafe (Value.vnum q) = q ∧
      toNumberSafe Value.vnan = 0 ∧ toNumberSafe (Value.vinf b) = 0 ∧
      toNumberSafe (Value.vstr s) = (jsNumber (stripCommas s)).getD 0) ∧
    (toNumberSafeDash Value.vnull = 0 ∧ toNumberSafeDash Value.vundef = 0 ∧
      toNumberSafeDash (Value.vstr "") = 0 ∧ toNumberSafeDash (Value.vnum q) = q ∧
      toNumberSafeDash Value.vnan = 0 ∧ toNumberSafeDash (Value.vinf b) = 0 ∧
      toNumberSafeDash (Value.vstr s) = (jsNumber (stripCurrencySp s)).getD 0) ∧
    toNumberSafeDash (Value.vstr "₹1,234") = 1234 ∧
    toNumberSafe (Value.vstr "₹1,234") = 0 := by
  refine ⟨⟨rfl, rfl, by decide, rfl, rfl, rfl, ?_⟩,
    ⟨rfl, rfl, by decide, rfl, rfl, rfl, ?_⟩, by decide, by decide⟩
  · by_cases hs : s = ""
    · subst hs; decide
    · simp [toNumberSafe, hs]
  · by_cases hs : s = ""
    · subst hs; decide
    · simp [toNumberSafeDash, hs]

/-- C5: immediately after adding a column, every pre-existing row
contains the new column's key with the empty-string default, and no row
lacks a key for any declared column (old or new). -/
theorem addColumnBackfillsAllRows (columns : List DbColumn) (rows : List DbRow)
    (colName : String) (ctype : ColumnType) (cid tid : String)
    (hfresh : ∀ r ∈ rows, objGet r.row_data colName = none)
    (hinv : ∀ r ∈ rows, ∀ c ∈ columns, (objGet r.row_data c.name).isSome = true) :
    (∀ r' ∈ handleAddColumnRows rows colName,
      objGet r'.row_data colName = some (Value.vstr "")) ∧
    (∀ r' ∈ handleAddColumnRows rows colName,
      ∀ c ∈ columns ++ [DbColumn.mk cid tid colName ctype],
        (objGet r'.row_data c.name).isSome = true) := by
  have hstep : ∀ r ∈ rows,
      (if jsIndex r.row_data colName ≠ Value.vundef then r
        else { r with row_data := objSet r.row_data colName (Value.vstr "") }) =
        { r with row_data := objSet r.row_data colName (Value.vstr "") } := by
    intro r hr
    have hidx : jsIndex r.row_data colName = Value.vundef := by
      simp [jsIndex, hfresh r hr]
    rw [if_neg (by simp [hidx])]
  constructor
  · intro r' hr'
    rcases List.mem_map.mp hr' with ⟨r, hr, rfl⟩
    rw [hstep r hr]
    exact objGet_set_self _ _ _
  · intro r' hr' c hcmem
    rcases List.mem_map.mp hr' with ⟨r, hr, rfl⟩
    rw [hstep r hr]
    rcases List.mem_append.mp hcmem with hold | hnew
    · by_cases hname : c.name = colName
      · rw [hname, objGet_set_self]
        rfl
      · rw [objGet_set_ne _ _ _ _ hname]
        exact hinv r hr c hold
    · rcases List.mem_singleton.mp hnew with rfl
      rw [objGet_set_self]
      rfl

/-- Witness for C5: adding a `Notes` column to a one-row table gives
the (only) backfilled row the new key with the empty-string default. -/
theorem addColumnBackfillsAllRows_witness :
    objGet [("Amount", Value.vnum 3), ("Notes", Value.vstr "")] "Notes" =
      some (Value.vstr "") :=
  (addColumnBackfillsAllRows [⟨"c1", "t1", "Amount", ColumnType.currency⟩]
    [⟨"r1", "t1", [("Amount", Value.vnum 3)]⟩] "Notes" ColumnType.text "c2" "t1"
    (by decide) (by decide)).1
    ⟨"r1", "t1", [("Amount", Value.vnum 3), ("Notes", Value.vstr "")]⟩ (by decide)

theorem matchesAny_amount_empty : matchesAny amountTerms "" = false := by decide

theorem matchesAny_expense_empty : matchesAny expenseTerms "" = false := by decide

/-- C4 counterexample: the reports-page `moneySummary` counts a
currency column named "Misc" — which matches neither the amount nor the
expense pattern, and which the dashboard classifier excludes — as
revenue: with one row whose `Misc` cell is "7" the summary is
`(revenue 7, expense 0)`, so a column matching neither pattern does
contribute to a revenue/expense financial summary. -/
theorem analyticsClassifierCounterexample :
    moneySummary (fun _ => "") [⟨"c1", "t1", "Misc", ColumnType.currency⟩]
        [⟨"r1", "t1", [("Misc", Value.vstr "7")]⟩] = ((7 : ℚ), 0) ∧
    matchesAny amountTerms "Misc" = false ∧
    matchesAny expenseTerms "Misc" = false ∧
    classifyColumn ⟨"c1", "t1", "Misc", ColumnType.currency⟩ = none := by
  refine ⟨?_, by decide, by decide, by decide⟩
  have hv : toNumberSafeAnalytics (fun _ : ℚ => "") (Value.vstr "7") = 7 := by decide
  have h1 : substrB "total" "misc" = false := by decide
  have h2 : substrB "expense" "misc" = false := by decide
  have h3 : substrB "cost" "misc" = false := by decide
  simp [moneySummary, jsIndex, objGet, jsLowerAscii, lowerChar, hv, h1, h2, h3]

/-- C4 (amended): in the dashboard cross-table analytics the claim
holds — a column is classified (and so contributes to the
revenue/expense summary) iff its type is number or currency and its
trimmed name matches the amount-like or expense-like pattern
case-insensitively; an expense-pattern match buckets as expense, any
other match as revenue, and a column matching neither is excluded.  The
reports-page `moneySummary` instead sums every currency column whose
name does not contain "total", bucketing names containing "expense" or
"cost" as expense and all others as revenue (see the counterexample). -/
theorem dashboardClassifierCharacterisation (c : DbColumn) :
    ((classifyColumn c).isSome = true ↔
      ((c.type = ColumnType.number ∨ c.type = ColumnType.currency) ∧
        (matchesAny amountTerms (jsTrim c.name) = true ∨
          matchesAny expenseTerms (jsTrim c.name) = true))) ∧
    (classifyColumn c = some Bucket.expense ↔
      ((c.type = ColumnType.number ∨ c.type = ColumnType.currency) ∧
        matchesAny expenseTerms (jsTrim c.name) = true)) ∧
    (classifyColumn c = some Bucket.revenue ↔
      ((c.type = ColumnType.number ∨ c.type = ColumnType.currency) ∧
        matchesAny amountTerms (jsTrim c.name) = true ∧
        matchesAny expenseTerms (jsTrim c.name) = false)) := by
  by_cases hnum : c.type = ColumnType.number ∨ c.type = ColumnType.currency
  · by_cases hempty : jsTrim c.name = ""
    · simp [classifyColumn, hnum, hempty, matchesAny_amount_empty,
        matchesAny_expense_empty]
    · by_cases hA : matchesAny amountTerms (jsTrim c.name) = true
      · by_cases hE : matchesAny expenseTerms (jsTrim c.name) = true
        · simp [classifyColumn, hnum, hempty, hA, hE]
        · simp [classifyColumn, hnum, hempty, hA, hE]
      · by_cases hE : matchesAny expenseTerms (jsTrim c.name) = true
        · simp [classifyColumn, hnum, hempty, hA, hE]
        · simp [classifyColumn, hnum, hempty, hA, hE]
  · simp [classifyColumn, hnum]

/-- Witness for C4: a number column named `Salary` is bucketed as
expense by the dashboard classifier. -/
theorem dashboardClassifierCharacterisation_witness :
    classifyColumn ⟨"c1", "t1", "Salary", ColumnType.number⟩ = some Bucket.expense :=
  (dashboardClassifierCharacterisation
      ⟨"c1", "t1", "Salary", ColumnType.number⟩).2.1.mpr
    ⟨Or.inl rfl, by decide⟩

/-- C6: after a column update renaming `oldName` to `newName` and/or
retyping to `newType`, every row's value map has lost the old key (when
the name changed), carries the new key, and the value under the new key
is the row's previous value under the old key coerced to the new type
(permissive numeric parse storing the empty marker for empty input,
canonical `YYYY-MM-DD` or empty for dates, string conversion for
text). -/
theorem columnRenameRetypeMigratesValues (numStr : ℚ → String)
    (parseDate : String → Option String) (oldName newName : String)
    (newType : ColumnType) (rows : List DbRow) (r : DbRow) (hr : r ∈ rows) :
    ∃ r' ∈ handleColumnUpdateRows numStr parseDate oldName newName newType rows,
      r'.id = r.id ∧
      (oldName ≠ newName → objGet r'.row_data oldName = none) ∧
      objGet r'.row_data newName =
        some (sanitizeValue numStr parseDate newType (jsIndex r.row_data oldName)) := by
  refine ⟨_, List.mem_map_of_mem _ hr, rfl, ?_, ?_⟩
  · intro hne
    show objGet (columnUpdateRow numStr parseDate oldName newName newType r.row_data)
        oldName = none
    unfold columnUpdateRow
    rw [if_neg (by simp [hne])]
    rw [objGet_set_ne _ _ _ _ hne]
    exact objGet_del_self _ _
  · show objGet (columnUpdateRow numStr parseDate oldName newName newType r.row_data)
        newName = _
    by_cases heq : oldName = newName
    · subst heq
      unfold columnUpdateRow
      rw [if_pos (by simp)]
      rw [objGet_set_self]
    · unfold columnUpdateRow
      rw [if_neg (by simp [heq])]
      rw [objGet_set_self]
      have hmid : jsIndex
          (objDel (objSet r.row_data newName (jsIndex r.row_data oldName)) oldName)
          newName = jsIndex r.row_data oldName := by
        unfold jsIndex
        rw [objGet_del_ne _ _ _ (Ne.symm heq), objGet_set_self]
        rfl
      rw [hmid]

/-- Witness for C6: renaming `Amt` to `Amount` while retyping to
currency on a one-row table. -/
theorem columnRenameRetypeMigratesValues_witness :
    ∃ r' ∈ handleColumnUpdateRows (fun _ => "") (fun _ => none) "Amt" "Amount"
        ColumnType.currency [⟨"r1", "t1", [("Amt", Value.vstr "12")]⟩],
      r'.id = "r1" ∧
      ("Amt" ≠ "Amount" → objGet r'.row_data "Amt" = none) ∧
      objGet r'.row_data "Amount" =
        some (sanitizeValue (fun _ => "") (fun _ => none) ColumnType.currency
          (jsIndex [("Amt", Value.vstr "12")] "Amt")) :=
  columnRenameRetypeMigratesValues (fun _ => "") (fun _ => none) "Amt" "Amount"
    ColumnType.currency [⟨"r1", "t1", [("Amt", Value.vstr "12")]⟩]
    ⟨"r1", "t1", [("Amt", Value.vstr "12")]⟩ (by decide)

/-- C7 counterexample: a search term consisting of one space keeps a
row none of whose cells contains a space — the code treats every
whitespace-only term like the empty term, so inclusion is not
equivalent to a case-insensitive substring match for such terms. -/
theorem searchFilterCounterexample :
    filteredRows (fun s => s) (fun _ => "")
        [⟨"r1", "t1", [("A", Value.vstr "abc")]⟩] " " =
      [⟨"r1", "t1", [("A", Value.vstr "abc")]⟩] ∧
    rowMatchesQ (fun s => s) (fun _ => "") " "
      ⟨"r1", "t1", [("A", Value.vstr "abc")]⟩ = false := by
  constructor
  · decide
  · decide

/-- C7 (amended): a search term that is empty or whitespace-only keeps
every row; for any other term a row is kept iff some cell's lowercased
display string contains the lowercased term; consequently every
filtered view is a subset of the unfiltered view, and the empty term
filters nothing. -/
theorem searchFilterCharacterisation (lower : String → String) (numStr : ℚ → String)
    (rows : List DbRow) (S : String) (r : DbRow) :
    (jsTrim S = "" → filteredRows lower numStr rows S = rows) ∧
    (jsTrim S ≠ "" →
      (r ∈ filteredRows lower numStr rows S ↔
        r ∈ rows ∧ rowMatchesQ lower numStr (lower S) r = true)) ∧
    (∀ x ∈ filteredRows lower numStr rows S, x ∈ rows) ∧
    filteredRows lower numStr rows "" = rows := by
  refine ⟨?_, ?_, ?_, ?_⟩
  · intro h
    simp [filteredRows, h]
  · intro h
    simp [filteredRows, h, List.mem_filter]
  · intro x hx
    by_cases h : jsTrim S = ""
    · simpa [filteredRows, h] using hx
    · have hx' : x ∈ rows.filter (rowMatchesQ lower numStr (lower S)) := by
        simpa [filteredRows, h] using hx
      exact List.mem_of_mem_filter hx'
  · simp [filteredRows, show jsTrim "" = "" from rfl]

/-- Witness for C7: a term of actual content filters by substring. -/
theorem searchFilterCharacterisation_witness :
    ⟨"r1", "t1", [("A", Value.vstr "abc")]⟩ ∈
        filteredRows (fun s => s) (fun _ => "")
          [⟨"r1", "t1", [("A", Value.vstr "abc")]⟩] "b" ↔
      (⟨"r1", "t1", [("A", Value.vstr "abc")]⟩ : DbRow) ∈
          [(⟨"r1", "t1", [("A", Value.vstr "abc")]⟩ : DbRow)] ∧
        rowMatchesQ (fun s => s) (fun _ => "") "b"
          ⟨"r1", "t1", [("A", Value.vstr "abc")]⟩ = true :=
  ((searchFilterCharacterisation (fun s => s) (fun _ => "")
      [⟨"r1", "t1", [("A", Value.vstr "abc")]⟩] "b"
      ⟨"r1", "t1", [("A", Value.vstr "abc")]⟩).2.1 (by decide))

/-- C8 counterexample: two rows tied on the sort column — the stable
sort leaves them in creation order in BOTH directions, so toggling to
descending does not produce the exact reverse of the ascending order. -/
theorem sortToggleReverseCounterexample :
    filteredAndSortedRows (fun s => s) (fun _ => "") (fun s => s)
        [⟨"c1", "t1", "A", ColumnType.number⟩]
        [⟨"r1", "t1", [("A", Value.vnum 5)]⟩, ⟨"r2", "t1", [("A", Value.vnum 5)]⟩]
        "" (some "A") SortDir.desc ≠
      (filteredAndSortedRows (fun s => s) (fun _ => "") (fun s => s)
        [⟨"c1", "t1", "A", ColumnType.number⟩]
        [⟨"r1", "t1", [("A", Value.vnum 5)]⟩, ⟨"r2", "t1", [("A", Value.vnum 5)]⟩]
        "" (some "A") SortDir.asc).reverse := by
  decide

/-- C8 (amended): when no two filtered rows share a sort key, toggling
from ascending to descending yields the exact reverse of the ascending
order (in both the numeric and the locale-string comparator branch);
and unconditionally, rows with equal sort keys keep their relative
creation order under either direction (stability). -/
theorem sortToggleAndStability (lower : String → String) (numStr : ℚ → String)
    (ckey : String → String) (columns : List DbColumn) (rows : List DbRow)
    (searchQuery : String) (colName : String) :
    ((resolvedSortType columns colName = ColumnType.number ∨
        resolvedSortType columns colName = ColumnType.currency) →
      (((filteredRows lower numStr rows searchQuery).Pairwise
          (fun a b => numKey colName a ≠ numKey colName b)) →
        filteredAndSortedRows lower numStr ckey columns rows searchQuery
            (some colName) SortDir.desc =
          (filteredAndSortedRows lower numStr ckey columns rows searchQuery
            (some colName) SortDir.asc).reverse) ∧
      (∀ (v : ℚ) (d : SortDir),
        (filteredAndSortedRows lower numStr ckey columns rows searchQuery
            (some colName) d).filter (fun x => decide (numKey colName x = v)) =
          (filteredRows lower numStr rows searchQuery).filter
            (fun x => decide (numKey colName x = v)))) ∧
    (¬(resolvedSortType columns colName = ColumnType.number ∨
        resolvedSortType columns colName = ColumnType.currency) →
      (((filteredRows lower numStr rows searchQuery).Pairwise
          (fun a b =>
            strKey ckey numStr colName a ≠ strKey ckey numStr colName b)) →
        filteredAndSortedRows lower numStr ckey columns rows searchQuery
            (some colName) SortDir.desc =
          (filteredAndSortedRows lower numStr ckey columns rows searchQuery
            (some colName) SortDir.asc).reverse) ∧
      (∀ (v : String) (d : SortDir),
        (filteredAndSortedRows lower numStr ckey columns rows searchQuery
            (some colName) d).filter
            (fun x => decide (strKey ckey numStr colName x = v)) =
          (filteredRows lower numStr rows searchQuery).filter
            (fun x => decide (strKey ckey numStr colName x = v)))) := by
  constructor
  · intro ht
    constructor
    · intro hd
      simp only [filteredAndSortedRows, if_pos ht]
      exact sortJs_desc_eq_reverse (numKey colName) _ hd
    · intro v d
      simp only [filteredAndSortedRows, if_pos ht]
      exact sortJs_stable_key (numKey colName) d v _ _
  · intro ht
    constructor
    · intro hd
      simp only [filteredAndSortedRows, if_neg ht]
      exact sortJs_desc_eq_reverse (strKey ckey numStr colName) _ hd
    · intro v d
      simp only [filteredAndSortedRows, if_neg ht]
      exact sortJs_stable_key (strKey ckey numStr colName) d v _ _

/-- Witness for C8: with distinct numeric keys the descending view is
the reverse of the ascending view. -/
theorem sortToggleAndStability_witness :
    filteredAndSortedRows (fun s => s) (fun _ => "") (fun s => s)
        [⟨"c1", "t1", "A", ColumnType.number⟩]
        [⟨"r1", "t1", [("A", Value.vnum 1)]⟩, ⟨"r2", "t1", [("A", Value.vnum 2)]⟩]
        "" (some "A") SortDir.desc =
      (filteredAndSortedRows (fun s => s) (fun _ => "") (fun s => s)
        [⟨"c1", "t1", "A", ColumnType.number⟩]
        [⟨"r1", "t1", [("A", Value.vnum 1)]⟩, ⟨"r2", "t1", [("A", Value.vnum 2)]⟩]
        "" (some "A") SortDir.asc).reverse :=
  ((sortToggleAndStability (fun s => s) (fun _ => "") (fun s => s)
      [⟨"c1", "t1", "A", ColumnType.number⟩]
      [⟨"r1", "t1", [("A", Value.vnum 1)]⟩, ⟨"r2", "t1", [("A", Value.vnum 2)]⟩]
      "" "A").1 (by decide)).1 (by decide)

end Ledgerly
